import Mathlib

/-!
Shallow embedding of `src/base.js` (class `BaseTag3D`) of the qrcode2stl
repository: parametric 3D-tag generation — base plate, optional border,
subtitle text layout with greedy character-level wrapping, optional NFC
indentation, optional keychain attachment, and a combined export mesh.

External collaborators (THREE.js geometry construction, font measurement via
`getBoundingBoxSize`, CSG `subtractMesh` / `unionMesh` from `utils.js`) are
embedded symbolically: geometry constructors record their arguments, CSG
operations record both operands with their transforms, and bounding-box
measurement is an abstract parameter (`Ext.bboxSize`).  Rotation angles are
recorded in units of pi (so `-1/2` stands for `-pi/2`).  JavaScript floating
point numbers are embedded as rationals.
-/

namespace QrTag

/- Batteries marks the rational-number arithmetic `@[irreducible]`, which
blocks `decide`-based evaluation of the embedding at concrete inputs; restore
the default reducibility locally (the kernel is unaffected by reducibility
attributes). -/
attribute [local semireducible] Rat.sub Rat.add Rat.mul Rat.inv Rat.ofScientific

/-- A 3D vector of rationals (models `THREE.Vector3` as used by the source). -/
structure Vec3 where
  x : ℚ
  y : ℚ
  z : ℚ
deriving DecidableEq

/-- The default position/rotation `(0, 0, 0)`. -/
def v0 : Vec3 := ⟨0, 0, 0⟩

/-- The two materials of the source (`materialBase` / `materialDetail`). -/
inductive MaterialKind where
  | base
  | detail
deriving DecidableEq

/-- The four fonts of `getSubtitleMesh`: `fontInterSemiBold` (plain),
`fontInterSemiBoldItalic`, `fontInterExtraBold` (bold),
`fontInterExtraBoldItalic`. -/
inductive FontStyle where
  | plain
  | italic
  | bold
  | boldItalic
deriving DecidableEq

/-- The `fonts` array of `getSubtitleMesh` (line 148), indexed by `emphLevel`. -/
def fonts : List FontStyle :=
  [FontStyle.plain, FontStyle.italic, FontStyle.bold, FontStyle.boldItalic]

/-- The 2D profiles produced by `getRoundedRectShape` / `getCustomRoundedRectShape`
of `utils.js`; fields are recorded in the positional order of the calls in
`base.js` (origin x, origin y, extent along x, extent along y, radii).
`noShape` models the JS `undefined` that results when `textPlacement` matches
no branch of `getBaseMesh` / `getBorderMesh`. -/
inductive Shape where
  | roundedRect (x y w h r : ℚ)
  | customRoundedRect (x y w h rtl rtr rbr rbl : ℚ)
  | noShape
deriving DecidableEq

/-- Symbolic geometry values.  `appliedGeo` records
`geometry.clone().applyMatrix4(mesh.matrix)` (the mesh's position and
rotation baked into the geometry); `mergedGeo` records
`BufferGeometryUtils.mergeGeometries` of a list of geometries (index buffers
are not modelled, so `toNonIndexed()` is the identity here); `csgSubtract` /
`csgUnion` record the two operand meshes (geometry, position, rotation each)
of the black-box CSG operations from `utils.js`. -/
inductive Geometry where
  | extrudeGeo (shape : Shape) (steps : ℕ) (depth : ℚ) (bevelEnabled : Bool)
  | cylinderGeo (radiusTop radiusBottom height : ℚ) (radialSegments : ℕ)
  | boxGeo (width height depth : ℚ)
  | textGeo (text : List Char) (font : FontStyle) (size depth : ℚ)
  | emptyBufferGeo
  | appliedGeo (g : Geometry) (position rotation : Vec3)
  | mergedGeo (gs : List Geometry)
  | csgSubtract (gA : Geometry) (posA rotA : Vec3) (gB : Geometry) (posB rotB : Vec3)
  | csgUnion (gA : Geometry) (posA rotA : Vec3) (gB : Geometry) (posB rotB : Vec3)

/-- A `THREE.Mesh`: a geometry with a transform and a material. -/
structure Mesh where
  geometry : Geometry
  position : Vec3
  rotation : Vec3
  material : MaterialKind

/-- The CSG operation `subtractMesh` from `utils.js` (black box per the spec): records both
operands; the result sits at the default transform (the source always
repositions the result afterwards when it needs a transform).  The material
of a CSG result is never observed by the claims; we keep the first operand's. -/
def subtractMesh (a b : Mesh) : Mesh :=
  ⟨Geometry.csgSubtract a.geometry a.position a.rotation b.geometry b.position b.rotation,
   v0, v0, a.material⟩

/-- The CSG operation `unionMesh` from `utils.js` (black box per the spec). -/
def unionMesh (a b : Mesh) : Mesh :=
  ⟨Geometry.csgUnion a.geometry a.position a.rotation b.geometry b.position b.rotation,
   v0, v0, a.material⟩

/-- The operation `geometry.clone().applyMatrix4(mesh.matrix)`: the part's transform applied
to its geometry, as done in `getSubtitleMesh` and `getCombinedMesh`. -/
def worldGeo (m : Mesh) : Geometry :=
  Geometry.appliedGeo m.geometry m.position m.rotation

/-- The `options.code` sub-object (the fields read by `base.js`). -/
structure CodeOptions where
  margin : ℚ
  invert : Bool
deriving DecidableEq

/-- The `options.base` sub-object (the fields read by `base.js`).
`textMessage` is a JS string, embedded as a list of characters. -/
structure BaseOptions where
  width : ℚ
  height : ℚ
  depth : ℚ
  shape : String
  cornerRadius : ℚ
  hasBorder : Bool
  borderWidth : ℚ
  borderDepth : ℚ
  hasText : Bool
  textPlacement : String
  textAlign : String
  textMessage : List Char
  textSize : ℚ
  textDepth : ℚ
  textMargin : ℚ
  hasNfcIndentation : Bool
  nfcIndentationShape : String
  nfcIndentationSize : ℚ
  nfcIndentationDepth : ℚ
  nfcIndentationHidden : Bool
  hasKeychainAttachment : Bool
  keychainHoleDiameter : ℚ
  keychainPlacement : String
  mirrorHoles : Bool
deriving DecidableEq

/-- The full options object (colors are omitted: they only select between the
two materials, which `MaterialKind` already captures). -/
structure Options where
  base : BaseOptions
  code : CodeOptions
deriving DecidableEq

/-- The external measurement collaborator: `getBoundingBoxSize` from
`utils.js` (black box per the spec, section 6). -/
structure Ext where
  bboxSize : Mesh → Vec3

/-- The constant `LINE_HEIGHT = 1.5` (line 13). -/
def LINE_HEIGHT : ℚ := 3/2

/-- The field `this.availableWidth` as computed in the constructor (lines 34-38):
`base.width - 2*code.margin`, minus `2*base.borderWidth` when `hasBorder`. -/
def availableWidth (opts : Options) : ℚ :=
  opts.base.width - 2 * opts.code.margin -
    (if opts.base.hasBorder then 2 * opts.base.borderWidth else 0)

/-- JS `String.prototype.trim()` (whitespace stripped from both ends). -/
def jsTrim (s : List Char) : List Char :=
  ((s.dropWhile Char.isWhitespace).reverse.dropWhile Char.isWhitespace).reverse

/-- JS `String.prototype.split(c)` for a single-character separator
(`"".split(c)` gives `[""]`, matching the base case). -/
def splitOnChar (c : Char) : List Char → List (List Char)
  | [] => [[]]
  | a :: rest =>
    match splitOnChar c rest with
    | [] => if a = c then [[], []] else [[a]]
    | h :: t => if a = c then [] :: h :: t else (a :: h) :: t

/-- JS `Array.prototype.join('\n')`. -/
def joinLines : List (List Char) → List Char
  | [] => []
  | [l] => l
  | l :: ls => l ++ '\n' :: joinLines ls

/-- JS `Array.prototype.splice(i, 0, x)`: insert `x` at index `i`. -/
def jsSplice (l : List (List Char)) (i : ℕ) (x : List Char) : List (List Char) :=
  l.take i ++ x :: l.drop i

/-- The line list `this.options.base.textMessage.trim().split('\n')` (lines 150, 469, 491). -/
def initLines (opts : Options) : List (List Char) :=
  splitOnChar '\n' (jsTrim opts.base.textMessage)

/-- One pass of the emphasis-marker stripping loop (lines 156-162 and
498-504): while the first and last character are both `'*'`, drop them
(`text.substr(1, text.length - 2)`) and bump the level, breaking once the
level reaches 3.  The `fuel` argument is the number of strips still allowed
(3 at the start), which makes the `break` at level 3 structural. -/
def stripEmphGo : ℕ → List Char → ℕ → ℕ × List Char
  | 0, s, e => (e, s)
  | fuel + 1, s, e =>
    if s.head? = some '*' ∧ s.getLast? = some '*' then
      stripEmphGo fuel ((s.drop 1).dropLast) (e + 1)
    else (e, s)

/-- The emphasis stripping of one line: returns `(emphLevel, text)`. -/
def stripEmph (s : List Char) : ℕ × List Char :=
  stripEmphGo 3 s 0

/-- The text mesh built from one line: `new THREE.Mesh(new TextGeometry(text,
(font, size: textSize, depth: textDepth)), materialDetail)` before any
transform is set. -/
def textMeshOf (opts : Options) (font : FontStyle) (text : List Char) : Mesh :=
  ⟨Geometry.textGeo text font opts.base.textSize opts.base.textDepth, v0, v0,
   MaterialKind.detail⟩

/-- The measurement `getBoundingBoxSize(subtitleMesh).x` for a one-line text mesh: the
measured rendered width of `text` at the given font style. -/
def measuredTextWidth (ext : Ext) (opts : Options) (font : FontStyle)
    (text : List Char) : ℚ :=
  (ext.bboxSize (textMeshOf opts font text)).x

/-- The do-while wrap loop of `getSubtitleMesh` (lines 169-190), with the
incremental splice/prepend of dropped characters collapsed into the
accumulator `spill`: each iteration measures the candidate `text`; if its
width exceeds `avail`, the last character is removed from `text` and
prepended to `spill` (the JS code prepends it to the line at index `i+1`,
creating that line on the first overflow).  The JS loop has no bound: when
`text` is already empty and still over-wide it spins forever (`substr` keeps
returning the empty string), which the `fuel` models by returning `none`. -/
def wrapGo (wf : List Char → ℚ) (avail : ℚ) :
    ℕ → List Char → List Char → Option (List Char × List Char)
  | 0, _, _ => none
  | fuel + 1, text, spill =>
    if wf text ≤ avail then some (text, spill)
    else
      match text.getLast? with
      | none => wrapGo wf avail fuel [] spill
      | some c => wrapGo wf avail fuel text.dropLast (c :: spill)

/-- The mutable loop state of `getSubtitleMesh`: the (growing) `textLines`
array, the loop index `i`, the (growing) `numLines`, the accumulated
`textGeometry` (none while it has no position attribute), and — as an
observation of the loop — the list of `(font, text)` pairs actually handed
to `TextGeometry` for rendering. -/
structure SubState where
  textLines : List (List Char)
  i : ℕ
  numLines : ℕ
  geom : Option Geometry
  rendered : List (FontStyle × List Char)

/-- Merging one line's transformed geometry into the accumulated
`textGeometry` (lines 271-281): the first line is copied, later lines are
merged pairwise via `mergeGeometries`. -/
def mergeTextGeo (acc : Option Geometry) (g : Geometry) : Option Geometry :=
  match acc with
  | none => some g
  | some a => some (Geometry.mergedGeo [a, g])

/-- Method `getTextRenderWidth` (lines 486-524): the maximum measured width over all
(emphasis-stripped) lines of the unwrapped message, measured with the plain
font (`fontInterSemiBold`) regardless of emphasis level, starting from 0. -/
def getTextRenderWidth (ext : Ext) (opts : Options) : ℚ :=
  if opts.base.hasText = false then 0
  else
    (initLines opts).foldl
      (fun maxWidth line =>
        let w := measuredTextWidth ext opts FontStyle.plain (stripEmph line).2
        if maxWidth < w then w else maxWidth)
      0

/-- The body of the per-line `for` loop of `getSubtitleMesh` (lines 153-282)
for the line at index `st.i`.  The net effect of the in-loop
`splice`/prepend on `textLines` (lines 183-187) followed by the emphasis
re-wrap of line `i+1` (line 195) is the insertion, at index `i+1`, of the
spilled suffix wrapped in `emphLevel` asterisks — nothing reads the
intermediate states.  Note the source never writes the shortened candidate
back to `textLines[i]`.  Returns `none` when the wrap loop diverges, or when
`textPlacement` is none of the five placements (the JS then crashes on a
`null` mesh). -/
def subtitleStep (ext : Ext) (opts : Options) (st : SubState) : Option SubState :=
  let line := st.textLines.getD st.i []
  let stripped := stripEmph line
  let font := fonts.getD stripped.1 FontStyle.plain
  if opts.base.textPlacement = "top" ∨ opts.base.textPlacement = "bottom" ∨
      opts.base.textPlacement = "center" then
    match wrapGo (measuredTextWidth ext opts font) (availableWidth opts)
        (stripped.2.length + 1) stripped.2 [] with
    | none => none
    | some (kept, spill) =>
      let textLines2 :=
        if spill.isEmpty then st.textLines
        else jsSplice st.textLines (st.i + 1)
          (List.replicate stripped.1 '*' ++ spill ++ List.replicate stripped.1 '*')
      let numLines2 := if spill.isEmpty then st.numLines else st.numLines + 1
      let keptWidth := measuredTextWidth ext opts font kept
      let topSide := -opts.base.height/2 - opts.base.textMargin
        - opts.base.textSize * (st.i : ℚ) * LINE_HEIGHT
      let bottomSide := opts.base.height/2 + opts.base.textMargin
        + opts.base.textSize * ((st.i : ℚ) + 1) * LINE_HEIGHT
        - (if opts.base.hasBorder then opts.base.borderWidth else 0)
      let centerSide := (if 1 < numLines2 then -(numLines2 : ℚ) * (opts.base.textSize/2) else 0)
        + opts.base.textSize/2 + opts.base.textSize * (st.i : ℚ) * LINE_HEIGHT
      let placementV :=
        if opts.base.textPlacement = "top" then topSide
        else if opts.base.textPlacement = "center" then centerSide
        else bottomSide
      let alignment :=
        if opts.base.textAlign = "left" then -(availableWidth opts)/2 + opts.base.textMargin
        else if opts.base.textAlign = "center" then -keptWidth/2
        else if opts.base.textAlign = "right" then
          -keptWidth + (availableWidth opts)/2 - opts.base.textMargin
        else -keptWidth/2
      some ⟨textLines2, st.i + 1, numLines2,
        mergeTextGeo st.geom (worldGeo
          ⟨Geometry.textGeo kept font opts.base.textSize opts.base.textDepth,
           ⟨placementV, alignment, opts.base.depth⟩, ⟨0, 0, (1:ℚ)/2⟩,
           MaterialKind.detail⟩),
        st.rendered ++ [(font, kept)]⟩
  else if opts.base.textPlacement = "left" ∨ opts.base.textPlacement = "right" then
    let maxTextWidth := getTextRenderWidth ext opts + 2 * opts.base.textMargin
    let textWidth := measuredTextWidth ext opts font stripped.2
    let leftSide := -opts.base.width/2 - textWidth - (maxTextWidth - textWidth)/2
      + (if opts.base.hasBorder then opts.base.borderWidth else 0)
    let rightSide := opts.base.width/2 + (maxTextWidth - textWidth)/2
      - (if opts.base.hasBorder then opts.base.borderWidth else 0)
    let side := if opts.base.textPlacement = "left" then leftSide else rightSide
    let alignment :=
      if opts.base.textAlign = "left" then
        -opts.base.height/2 + opts.base.textMargin
          + opts.base.textSize * ((st.i : ℚ) + 1) * LINE_HEIGHT
      else if opts.base.textAlign = "right" then
        opts.base.height/2 - opts.base.textMargin
          - opts.base.textSize * ((st.numLines : ℚ) - (st.i : ℚ)) * LINE_HEIGHT
          + opts.base.textSize
      else if st.numLines = 1 then opts.base.textSize/2
      else opts.base.textSize * ((st.i : ℚ) + 1) * LINE_HEIGHT
        - ((st.numLines : ℚ) * (opts.base.textSize * LINE_HEIGHT))/2
    some ⟨st.textLines, st.i + 1, st.numLines,
      mergeTextGeo st.geom (worldGeo
        ⟨Geometry.textGeo stripped.2 font opts.base.textSize opts.base.textDepth,
         ⟨alignment, side, opts.base.depth⟩, ⟨0, 0, (1:ℚ)/2⟩,
         MaterialKind.detail⟩),
      st.rendered ++ [(font, stripped.2)]⟩
  else none

/-- The outer `for` loop of `getSubtitleMesh` (line 153): process lines while
`i < numLines`, where `numLines` grows when a line overflows.  The JS loop is
unbounded (a line can keep spawning identical overflow lines forever), so a
fuel bounds the number of iterations modelled; `none` means the fuel ran out
or a step failed. -/
def subtitleLoop (ext : Ext) (opts : Options) : ℕ → SubState → Option SubState
  | 0, st => if st.i < st.numLines then none else some st
  | fuel + 1, st =>
    if st.i < st.numLines then (subtitleStep ext opts st).bind (subtitleLoop ext opts fuel)
    else some st

/-- The loop state at entry of `getSubtitleMesh`: the split message, index 0,
its line count, an empty `textGeometry`, and no rendered lines yet. -/
def initSubState (opts : Options) : SubState :=
  ⟨initLines opts, 0, (initLines opts).length, none, []⟩

/-- Method `getSubtitleMesh` (lines 140-286): runs the per-line loop, then writes
`textLines.join('\n')` back into `options.base.textMessage` (line 284) and
returns the merged text mesh.  The rendered `(font, text)` pairs are returned
alongside as an observation of the wrap loop's output. -/
def getSubtitleMesh (ext : Ext) (fuel : ℕ) (opts : Options) :
    Option (Mesh × Options × List (FontStyle × List Char)) :=
  (subtitleLoop ext opts fuel (initSubState opts)).map fun st =>
    (⟨st.geom.getD Geometry.emptyBufferGeo, v0, v0, MaterialKind.detail⟩,
     { opts with base := { opts.base with textMessage := joinLines st.textLines } },
     st.rendered)

/-- Method `getCornerRadius` (lines 456-461). -/
def getCornerRadius (opts : Options) : ℚ :=
  if opts.base.shape = "roundedRectangle" then opts.base.cornerRadius else 0

/-- Method `getTextBaseOffset` (lines 466-480). -/
def getTextBaseOffset (ext : Ext) (opts : Options) : ℚ :=
  if opts.base.hasText then
    if opts.base.textPlacement = "top" ∨ opts.base.textPlacement = "bottom" then
      opts.base.textSize * ((initLines opts).length : ℚ) * LINE_HEIGHT
        + 2 * opts.base.textMargin
    else if opts.base.textPlacement = "left" then
      getTextRenderWidth ext opts + 2 * opts.base.textMargin
    else if opts.base.textPlacement = "right" then
      getTextRenderWidth ext opts + 2 * opts.base.textMargin
    else 0
  else 0

/-- Method `getTextTopOffset` (lines 526-531), with its `-0.1` correction constant. -/
def getTextTopOffset (ext : Ext) (opts : Options) : ℚ :=
  if opts.base.textPlacement = "top" then 2 * getTextBaseOffset ext opts - 1/10
  else 0

/-- Method `getTextLeftOffset` (lines 533-541). -/
def getTextLeftOffset (ext : Ext) (opts : Options) : ℚ :=
  if opts.base.textPlacement = "left" then 2 * getTextBaseOffset ext opts
  else if opts.base.textPlacement = "right" then 0
  else 0

/-- The base plate before the NFC indentation (lines 54-101 of `getBaseMesh`):
extruded rounded-rectangle profile, shifted by `textBaseOffset/2` along the
placement axis when `textBaseOffset > 0`. -/
def basePlateMesh (ext : Ext) (opts : Options) : Mesh :=
  let cornerRadius := getCornerRadius opts
  let textBaseOffset := getTextBaseOffset ext opts
  let shape :=
    if opts.base.textPlacement = "top" ∨ opts.base.textPlacement = "bottom" ∨
        opts.base.textPlacement = "center" then
      Shape.roundedRect (-(opts.base.height + textBaseOffset)/2) (-opts.base.width/2)
        (opts.base.height + textBaseOffset) opts.base.width cornerRadius
    else if opts.base.textPlacement = "left" ∨ opts.base.textPlacement = "right" then
      Shape.roundedRect (-opts.base.height/2) (-(opts.base.width + textBaseOffset)/2)
        opts.base.height (opts.base.width + textBaseOffset) cornerRadius
    else Shape.noShape
  let pos :=
    if 0 < textBaseOffset then
      if opts.base.textPlacement = "bottom" then (⟨textBaseOffset/2, 0, 0⟩ : Vec3)
      else if opts.base.textPlacement = "top" then ⟨-textBaseOffset/2, 0, 0⟩
      else if opts.base.textPlacement = "center" then v0
      else if opts.base.textPlacement = "left" then ⟨0, -textBaseOffset/2, 0⟩
      else if opts.base.textPlacement = "right" then ⟨0, textBaseOffset/2, 0⟩
      else v0
    else v0
  ⟨Geometry.extrudeGeo shape 1 opts.base.depth false, pos, v0, MaterialKind.base⟩

/-- The NFC indentation solid (lines 103-128): a cylinder (diameter
`nfcIndentationSize`, rotated `-pi/2` about x) for shape `'round'`, otherwise
a box of side `nfcIndentationSize`; depth `nfcIndentationDepth`; placed at
`z = depth/2` (plus 1 when `nfcIndentationHidden`), `y = 0`, and `x` equal to
the plate mesh's x position (`holeMesh.position.x = baseMesh.position.x`). -/
def nfcHoleMesh (opts : Options) (plateX : ℚ) : Mesh :=
  if opts.base.nfcIndentationShape = "round" then
    ⟨Geometry.cylinderGeo (opts.base.nfcIndentationSize/2) (opts.base.nfcIndentationSize/2)
        opts.base.nfcIndentationDepth 32,
     ⟨plateX, 0, opts.base.nfcIndentationDepth/2
        + (if opts.base.nfcIndentationHidden then 1 else 0)⟩,
     ⟨-(1:ℚ)/2, 0, 0⟩, MaterialKind.base⟩
  else
    ⟨Geometry.boxGeo opts.base.nfcIndentationSize opts.base.nfcIndentationSize
        opts.base.nfcIndentationDepth,
     ⟨plateX, 0, opts.base.nfcIndentationDepth/2
        + (if opts.base.nfcIndentationHidden then 1 else 0)⟩,
     v0, MaterialKind.base⟩

/-- Method `getBaseMesh` (lines 52-135): the plate, minus the NFC indentation solid
when `hasNfcIndentation`. -/
def getBaseMesh (ext : Ext) (opts : Options) : Mesh :=
  let plate := basePlateMesh ext opts
  if opts.base.hasNfcIndentation then
    subtractMesh plate (nfcHoleMesh opts plate.position.x)
  else plate

/-- Method `getBorderMesh` (lines 291-372): outer profile minus inset profile, both
extruded by `borderDepth`; the result is raised to `z = base.depth`. -/
def getBorderMesh (ext : Ext) (opts : Options) : Mesh :=
  let cornerRadius := getCornerRadius opts
  let textBaseOffset := getTextBaseOffset ext opts
  let topOffset := getTextTopOffset ext opts
  let leftOffset := getTextLeftOffset ext opts
  let isTB := opts.base.textPlacement = "top" ∨ opts.base.textPlacement = "bottom" ∨
    opts.base.textPlacement = "center"
  let isLR := opts.base.textPlacement = "left" ∨ opts.base.textPlacement = "right"
  let borderShape :=
    if isTB then
      Shape.roundedRect (-(opts.base.height + topOffset)/2) (-opts.base.width/2)
        (opts.base.height + textBaseOffset) opts.base.width cornerRadius
    else if isLR then
      Shape.roundedRect (-opts.base.height/2) (-(opts.base.width + leftOffset)/2)
        opts.base.height (opts.base.width + textBaseOffset) cornerRadius
    else Shape.noShape
  let fullShapeMesh : Mesh :=
    ⟨Geometry.extrudeGeo borderShape 1 opts.base.borderDepth false, v0, v0,
     MaterialKind.detail⟩
  let borderHoleShape :=
    if isTB then
      Shape.roundedRect
        (-(opts.base.height + topOffset - opts.base.borderWidth * 2)/2)
        (-(opts.base.width - opts.base.borderWidth * 2)/2)
        (opts.base.height + textBaseOffset - opts.base.borderWidth * 2)
        (opts.base.width - opts.base.borderWidth * 2)
        (max 0 (cornerRadius - opts.base.borderWidth))
    else if isLR then
      Shape.roundedRect
        (-(opts.base.height - opts.base.borderWidth * 2)/2)
        (-(opts.base.width + leftOffset - opts.base.borderWidth * 2)/2)
        (opts.base.height - opts.base.borderWidth * 2)
        (opts.base.width + textBaseOffset - opts.base.borderWidth * 2)
        (max 0 (cornerRadius - opts.base.borderWidth))
    else Shape.noShape
  let holeMesh : Mesh :=
    ⟨Geometry.extrudeGeo borderHoleShape 1 opts.base.borderDepth false, v0, v0,
     MaterialKind.detail⟩
  { subtractMesh fullShapeMesh holeMesh with position := ⟨0, 0, opts.base.depth⟩ }

/-- The keychain tab profile (lines 380-394): `height = keychainHoleDiameter
+ 3`, `width = height + cornerPlacementOffset` where `cornerPlacementOffset =
holeRadius * 2`; two corners (the outward end) rounded with radius
`height/2`. -/
def keychainTabShape (opts : Options) : Shape :=
  let holeRadius := opts.base.keychainHoleDiameter / 2
  let cornerPlacementOffset := holeRadius * 2
  let height := opts.base.keychainHoleDiameter + 3
  let width := height + cornerPlacementOffset
  Shape.customRoundedRect (-height/2) (-width/2) height width 0 0 (height/2) (height/2)

/-- The extruded keychain tab (lines 396-403): depth `base.depth`, at the
default transform (`position.z = 0`). -/
def keychainTabMesh (opts : Options) : Mesh :=
  ⟨Geometry.extrudeGeo (keychainTabShape opts) 1 opts.base.depth false, v0, v0,
   MaterialKind.base⟩

/-- The keychain through-hole cylinder (lines 405-409): radius
`keychainHoleDiameter/2`, height `base.depth`, rotated `-pi/2` about x,
positioned at `z = depth/2` and `y = -cornerPlacementOffset/2`. -/
def keychainHoleMesh (opts : Options) : Mesh :=
  let holeRadius := opts.base.keychainHoleDiameter / 2
  let cornerPlacementOffset := holeRadius * 2
  ⟨Geometry.cylinderGeo holeRadius holeRadius opts.base.depth 32,
   ⟨0, -cornerPlacementOffset/2, opts.base.depth/2⟩,
   ⟨-(1:ℚ)/2, 0, 0⟩, MaterialKind.base⟩

/-- Method `getKeychainAttachmentMesh` (lines 377-454): tab minus hole, positioned
relative to the base mesh's bounding box per `keychainPlacement`, with an
optional mirrored copy unioned in. -/
def getKeychainAttachmentMesh (ext : Ext) (opts : Options) (baseM : Mesh) : Mesh :=
  let holeRadius := opts.base.keychainHoleDiameter / 2
  let cornerPlacementOffset := holeRadius * 2
  let height := opts.base.keychainHoleDiameter + 3
  let sub := subtractMesh (keychainTabMesh opts) (keychainHoleMesh opts)
  let baseBox := ext.bboxSize baseM
  let finalMesh :=
    if opts.base.keychainPlacement = "left" then
      { sub with position := ⟨baseM.position.x,
          baseM.position.y - baseBox.y/2 - height + cornerPlacementOffset, 0⟩ }
    else if opts.base.keychainPlacement = "top" then
      { sub with position := ⟨baseM.position.x - baseBox.x/2 - height + cornerPlacementOffset,
          baseM.position.y, 0⟩, rotation := ⟨0, 0, -(1:ℚ)/2⟩ }
    else if opts.base.keychainPlacement = "topLeft" then
      { sub with position := ⟨baseM.position.x - baseBox.x/2,
          baseM.position.y - baseBox.y/2, 0⟩, rotation := ⟨0, 0, -(1:ℚ)/4⟩ }
    else sub
  if opts.base.mirrorHoles then
    let mirror :=
      if opts.base.keychainPlacement = "left" then
        { sub with
          position := ⟨baseM.position.x,
            baseM.position.y + baseBox.y/2 + height - cornerPlacementOffset, 0⟩
          rotation := ⟨0, 0, 1⟩ }
      else if opts.base.keychainPlacement = "top" then
        { sub with position := ⟨baseM.position.x + baseBox.x/2 + height - cornerPlacementOffset,
            baseM.position.y, 0⟩, rotation := ⟨0, 0, (1:ℚ)/2⟩ }
      else if opts.base.keychainPlacement = "topLeft" then
        { sub with position := ⟨baseM.position.x + baseBox.x/2,
            baseM.position.y + baseBox.y/2, 0⟩, rotation := ⟨0, 0, (3:ℚ)/4⟩ }
      else sub
    unionMesh finalMesh mirror
  else finalMesh

/-- Method `getCombinedMesh` (lines 553-592): the flattened (non-boolean)
concatenation of the transformed geometries of the active parts, in
generation order — base always, border when present, subtitle when present
and not `code.invert`, keychain attachment when present. -/
def getCombinedMesh (baseM : Mesh) (borderM subM keyM : Option Mesh)
    (invert : Bool) : Mesh :=
  ⟨Geometry.mergedGeo
      ([worldGeo baseM]
        ++ borderM.toList.map worldGeo
        ++ (if invert then [] else subM.toList.map worldGeo)
        ++ keyM.toList.map worldGeo),
   v0, v0, MaterialKind.base⟩

/-- The part map `this.exportedMeshes`: the named part set handed to the exporter. -/
structure Exported where
  base : Option Mesh
  border : Option Mesh
  subtitle : Option Mesh
  keychainAttachment : Option Mesh
  combined : Option Mesh

/-- The object state after `generate3dModel`: the part fields of the class
plus the exported part set and the (possibly rewritten) options. -/
structure TagState where
  opts : Options
  baseMesh : Option Mesh
  borderMesh : Option Mesh
  subtitleMesh : Option Mesh
  keychainAttachmentMesh : Option Mesh
  exported : Exported

/-- Method `generate3dModel` (lines 597-618): subtitle first (rewriting
`textMessage`), then base, border, keychain attachment, and the combined
mesh; `exportedMeshes.subtitle` is only set when not `code.invert`.  `none`
models a non-terminating subtitle loop (or exhausted fuel). -/
def generate3dModel (ext : Ext) (fuel : ℕ) (opts0 : Options) : Option TagState :=
  let sub : Option (Option Mesh × Options) :=
    if opts0.base.hasText then
      (getSubtitleMesh ext fuel opts0).map (fun p => (some p.1, p.2.1))
    else some (none, opts0)
  match sub with
  | none => none
  | some (subM, opts) =>
    let baseM := getBaseMesh ext opts
    let borderM := if opts.base.hasBorder then some (getBorderMesh ext opts) else none
    let keyM :=
      if opts.base.hasKeychainAttachment then
        some (getKeychainAttachmentMesh ext opts baseM)
      else none
    some
      { opts := opts
        baseMesh := some baseM
        borderMesh := borderM
        subtitleMesh := subM
        keychainAttachmentMesh := keyM
        exported :=
          { base := some baseM
            border := borderM
            subtitle := if opts.code.invert then none else subM
            keychainAttachment := keyM
            combined := some (getCombinedMesh baseM borderM subM keyM opts.code.invert) } }

/-- Observer: the position of the cutting tool (second operand) of a CSG
subtraction result. -/
def csgCutToolPos (m : Mesh) : Option Vec3 :=
  match m.geometry with
  | Geometry.csgSubtract _ _ _ _ posB _ => some posB
  | _ => none

/-- Observer: the y coordinate of the center of a 2D profile (origin y plus
half the y extent). -/
def shapeCenterY : Shape → ℚ
  | Shape.roundedRect _ y _ h _ => y + h/2
  | Shape.customRoundedRect _ y _ h _ _ _ _ => y + h/2
  | Shape.noShape => 0

/-- Modelled from the spec: the x coordinate of the center of the QR/content
region of the plate.  The QR-code subclass that renders the content is not
part of this file's source; per the spec (section 4.3) the plate is shifted
by `textBaseOffset/2` "so the label region sits outside the content region
without resizing the QR/content area itself", i.e. the content region keeps
its position at the origin, so its center x is 0. -/
def contentCenterX (_opts : Options) : ℚ := 0

/-- A concrete measurement collaborator for witnesses: the width of a text
mesh is its character count; all other solids measure 0. -/
def extW : Ext :=
  ⟨fun m =>
    match m.geometry with
    | Geometry.textGeo t _ _ _ => ⟨(t.length : ℚ), 0, 0⟩
    | _ => v0⟩

/-- A small base configuration for witnesses: `availableWidth = 1`, message
`"ab"`, bottom placement. -/
def cfgBase : Options :=
  { base :=
      { width := 1, height := 1, depth := 1, shape := "rectangle", cornerRadius := 0,
        hasBorder := false, borderWidth := 0, borderDepth := 0, hasText := true,
        textPlacement := "bottom", textAlign := "center", textMessage := "ab".toList,
        textSize := 1, textDepth := 1, textMargin := 0, hasNfcIndentation := false,
        nfcIndentationShape := "round", nfcIndentationSize := 0,
        nfcIndentationDepth := 0, nfcIndentationHidden := false,
        hasKeychainAttachment := false, keychainHoleDiameter := 1,
        keychainPlacement := "left", mirrorHoles := false },
    code := { margin := 0, invert := false } }

/-- The message `"ab"` over `availableWidth = 1`: the wrap loop must split. -/
def cfg4 : Options := cfgBase

/-- Config `cfg4` after its first generation pass wrote `"ab\nb"` back. -/
def cfg4b : Options := { cfg4 with base.textMessage := "ab\nb".toList }

/-- A configuration with border, text and keychain attachment enabled and a
message that fits without wrapping. -/
def cfgW1 : Options :=
  { cfgBase with
    base.width := 100
    base.hasBorder := true
    base.borderWidth := 1
    base.borderDepth := 1
    base.hasKeychainAttachment := true
    base.textMessage := "Hi".toList }

/-- A configuration with an NFC indentation and a bottom text label of
`textBaseOffset = 10` (so the plate is shifted by `x = 5`). -/
def cfg7 : Options :=
  { cfgBase with
    base.hasNfcIndentation := true
    base.nfcIndentationSize := 20
    base.nfcIndentationDepth := 1
    base.textSize := 4
    base.textMargin := 2
    base.textMessage := "Hi".toList }

/-- A configuration with a keychain attachment of hole diameter 6 on a plate
of depth 3. -/
def opts8 : Options :=
  { cfgBase with
    base.hasKeychainAttachment := true
    base.keychainHoleDiameter := 6
    base.depth := 3 }

/-- The marker run `'*'.repeat(k)` (line 195). -/
def stars (k : ℕ) : List Char := List.replicate k '*'

/-! ## Basic lemmas about the wrap loop -/

/-- Whenever the wrap loop returns, the kept candidate measures within the
available width (the loop's exit condition). -/
theorem wrapGo_le (wf : List Char → ℚ) (avail : ℚ) :
    ∀ (fuel : ℕ) (text spill kept spl : List Char),
      wrapGo wf avail fuel text spill = some (kept, spl) → wf kept ≤ avail := by
  intro fuel
  induction fuel with
  | zero => intro text spill kept spl h; simp [wrapGo] at h
  | succ n ih =>
    intro text spill kept spl h
    simp only [wrapGo] at h
    by_cases hw : wf text ≤ avail
    · rw [if_pos hw] at h
      injection h with h'
      cases h'
      exact hw
    · rw [if_neg hw] at h
      cases hl : text.getLast? with
      | none => rw [hl] at h; exact ih _ _ _ _ h
      | some c => rw [hl] at h; exact ih _ _ _ _ h

/-- With enough fuel (one more than the candidate's length) the wrap loop
returns, provided the empty string fits: every over-wide iteration removes
exactly one character, so after at most `text.length` removals the candidate
is empty and the loop exits. -/
theorem wrapGo_isSome (wf : List Char → ℚ) (avail : ℚ) (h0 : wf [] ≤ avail) :
    ∀ (fuel : ℕ) (text spill : List Char), text.length < fuel →
      (wrapGo wf avail fuel text spill).isSome = true := by
  intro fuel
  induction fuel with
  | zero => intro text spill h; exact absurd h (Nat.not_lt_zero _)
  | succ n ih =>
    intro text spill h
    simp only [wrapGo]
    by_cases hw : wf text ≤ avail
    · rw [if_pos hw]; rfl
    · rw [if_neg hw]
      cases hl : text.getLast? with
      | none =>
        have htxt : text = [] := List.getLast?_eq_none_iff.mp hl
        exact absurd (htxt ▸ h0) hw
      | some c =>
        apply ih
        have htne : text ≠ [] := by intro he; rw [he] at hl; simp at hl
        have h1 : text.dropLast.length = text.length - 1 := List.length_dropLast text
        have h2 : 0 < text.length := List.length_pos.mpr htne
        omega

/-- The wrap loop only moves characters from the tail of the candidate to
the head of the spill: concatenating its two outputs recovers its two
inputs (so the spill is exactly the dropped suffix, in order). -/
theorem wrapGo_append (wf : List Char → ℚ) (avail : ℚ) :
    ∀ (fuel : ℕ) (text spill kept spl : List Char),
      wrapGo wf avail fuel text spill = some (kept, spl) →
      kept ++ spl = text ++ spill := by
  intro fuel
  induction fuel with
  | zero => intro text spill kept spl h; simp [wrapGo] at h
  | succ n ih =>
    intro text spill kept spl h
    simp only [wrapGo] at h
    by_cases hw : wf text ≤ avail
    · rw [if_pos hw] at h
      injection h with h'
      cases h'
      rfl
    · rw [if_neg hw] at h
      cases hl : text.getLast? with
      | none =>
        rw [hl] at h
        have htxt : text = [] := List.getLast?_eq_none_iff.mp hl
        rw [htxt]
        exact ih _ _ _ _ h
      | some c =>
        rw [hl] at h
        have h1 := ih _ _ _ _ h
        have h2 : text.dropLast ++ [c] = text :=
          List.dropLast_append_getLast? c hl
        calc kept ++ spl = text.dropLast ++ c :: spill := h1
          _ = (text.dropLast ++ [c]) ++ spill := by simp
          _ = text ++ spill := by rw [h2]

/-- Reading back the element just inserted by `splice(i, 0, x)`. -/
theorem jsSplice_getD (l : List (List Char)) (i : ℕ) (x d : List Char)
    (h : i ≤ l.length) : (jsSplice l i x).getD i d = x := by
  induction i generalizing l with
  | zero => simp [jsSplice]
  | succ n ih =>
    cases l with
    | nil => exact absurd h (by simp)
    | cons a t =>
      have : jsSplice (a :: t) (n + 1) x = a :: jsSplice t n x := by
        simp [jsSplice]
      rw [this]
      exact ih t (by simpa using h)

/-! ## Lemmas about emphasis stripping -/

/-- A line enclosed in at least one marker pair satisfies the strip-loop
condition. -/
theorem stripCondHolds (k : ℕ) (core : List Char) :
    (stars (k+1) ++ core ++ stars (k+1)).head? = some '*' ∧
    (stars (k+1) ++ core ++ stars (k+1)).getLast? = some '*' := by
  have hne : stars (k+1) ≠ [] := by simp [stars]
  constructor
  · simp [stars, List.replicate_succ]
  · rw [List.getLast?_append_of_ne_nil _ hne, stars, List.replicate_succ',
      List.getLast?_concat]

/-- One pass of the strip loop removes exactly one marker pair. -/
theorem stripStep (k : ℕ) (core : List Char) :
    ((stars (k+1) ++ core ++ stars (k+1)).drop 1).dropLast
      = stars k ++ core ++ stars k := by
  have hcons : stars (k+1) = '*' :: stars k := by
    simp [stars, List.replicate_succ]
  have hconcat : stars (k+1) = stars k ++ ['*'] := by
    simp [stars, List.replicate_succ']
  nth_rewrite 2 [hconcat]
  rw [hcons]
  simp only [List.cons_append, List.drop_succ_cons, List.drop_zero]
  rw [← List.append_assoc, List.dropLast_concat]

/-- Unrolling the strip loop once on a marker-enclosed line. -/
theorem stripEmphGo_step (fuel k e : ℕ) (core : List Char) :
    stripEmphGo (fuel+1) (stars (k+1) ++ core ++ stars (k+1)) e
      = stripEmphGo fuel (stars k ++ core ++ stars k) (e+1) := by
  simp only [stripEmphGo]
  rw [if_pos (stripCondHolds k core), stripStep]

/-- The emphasis level never exceeds the remaining strip allowance. -/
theorem stripEmphGo_fst_le (fuel : ℕ) :
    ∀ (s : List Char) (e : ℕ), (stripEmphGo fuel s e).1 ≤ e + fuel := by
  induction fuel with
  | zero => intro s e; simp [stripEmphGo]
  | succ n ih =>
    intro s e
    simp only [stripEmphGo]
    split
    · exact le_trans (ih _ _) (by omega)
    · simp

/-- A line enclosed in exactly `k ≤ 3` marker pairs (whose core is not itself
marker-enclosed) strips to level `k` with the core as rendered text. -/
theorem stripEmph_exact (k : ℕ) (core : List Char) (hk : k ≤ 3)
    (hcore : ¬(core.head? = some '*' ∧ core.getLast? = some '*')) :
    stripEmph (stars k ++ core ++ stars k) = (k, core) := by
  interval_cases k
  · simp only [stars, List.replicate_zero, List.nil_append, List.append_nil]
    simp only [stripEmph, stripEmphGo]
    rw [if_neg hcore]
  · show stripEmphGo 3 (stars (0+1) ++ core ++ stars (0+1)) 0 = (1, core)
    rw [stripEmphGo_step]
    simp only [stars, List.replicate_zero, List.nil_append, List.append_nil]
    simp only [stripEmphGo]
    rw [if_neg hcore]
  · show stripEmphGo 3 (stars (1+1) ++ core ++ stars (1+1)) 0 = (2, core)
    rw [stripEmphGo_step]
    show stripEmphGo 2 (stars (0+1) ++ core ++ stars (0+1)) 1 = (2, core)
    rw [stripEmphGo_step]
    simp only [stars, List.replicate_zero, List.nil_append, List.append_nil]
    simp only [stripEmphGo]
    rw [if_neg hcore]
  · show stripEmphGo 3 (stars (2+1) ++ core ++ stars (2+1)) 0 = (3, core)
    rw [stripEmphGo_step]
    show stripEmphGo 2 (stars (1+1) ++ core ++ stars (1+1)) 1 = (3, core)
    rw [stripEmphGo_step]
    show stripEmphGo 1 (stars (0+1) ++ core ++ stars (0+1)) 2 = (3, core)
    rw [stripEmphGo_step]
    simp only [stars, List.replicate_zero, List.nil_append, List.append_nil]
    rfl

/-- A line enclosed in four or more marker pairs strips exactly three. -/
theorem stripEmph_ge4 (m : ℕ) (core : List Char) :
    stripEmph (stars (m+4) ++ core ++ stars (m+4))
      = (3, stars (m+1) ++ core ++ stars (m+1)) := by
  show stripEmphGo 3 (stars ((m+3)+1) ++ core ++ stars ((m+3)+1)) 0 = _
  rw [stripEmphGo_step]
  show stripEmphGo 2 (stars ((m+2)+1) ++ core ++ stars ((m+2)+1)) 1 = _
  rw [stripEmphGo_step]
  show stripEmphGo 1 (stars ((m+1)+1) ++ core ++ stars ((m+1)+1)) 2 = _
  rw [stripEmphGo_step]
  rfl

/-! ## Claim theorems -/

/-- C6: emphasis stripping removes balanced leading/trailing asterisk pairs
up to at most 3 levels (a line enclosed in exactly `k ≤ 3` pairs strips to
level `k` with the core as rendered text), the level indexes the font list
`[plain, italic, bold, boldItalic]`, and a line enclosed in 4 or more pairs
has exactly 3 pairs stripped, the remaining markers staying in the rendered
text. -/
theorem emphasis_strip_spec (s core : List Char) (k m : ℕ) (hk : k ≤ 3)
    (hcore : ¬(core.head? = some '*' ∧ core.getLast? = some '*')) (hm : 4 ≤ m) :
    (stripEmph s).1 ≤ 3
    ∧ stripEmph (stars k ++ core ++ stars k) = (k, core)
    ∧ stripEmph (stars m ++ core ++ stars m) = (3, stars (m-3) ++ core ++ stars (m-3))
    ∧ fonts = [FontStyle.plain, FontStyle.italic, FontStyle.bold, FontStyle.boldItalic] := by
  refine ⟨?_, stripEmph_exact k core hk hcore, ?_, rfl⟩
  · simpa [stripEmph] using stripEmphGo_fst_le 3 s 0
  · obtain ⟨m', rfl⟩ : ∃ m', m = m' + 4 := ⟨m - 4, by omega⟩
    have h := stripEmph_ge4 m' core
    simpa [show m' + 4 - 3 = m' + 1 by omega] using h

/-- Witness for C6 at `s = "**x**"`, `core = "x"`, `k = 2`, `m = 4`. -/
theorem emphasis_strip_spec_witness :
    (stripEmph ("**x**".toList)).1 ≤ 3
    ∧ stripEmph (stars 2 ++ "x".toList ++ stars 2) = (2, "x".toList)
    ∧ stripEmph (stars 4 ++ "x".toList ++ stars 4)
        = (3, stars (4-3) ++ "x".toList ++ stars (4-3))
    ∧ fonts = [FontStyle.plain, FontStyle.italic, FontStyle.bold, FontStyle.boldItalic] :=
  emphasis_strip_spec "**x**".toList "x".toList 2 4 (by decide) (by decide) (by decide)

/-- C9: `getTextTopOffset` returns twice `getTextBaseOffset` minus the 0.1
correction constant exactly for placement `'top'` and 0 otherwise;
`getTextLeftOffset` returns twice `getTextBaseOffset` exactly for placement
`'left'` and 0 otherwise (including `'right'`, `'bottom'`, `'center'`). -/
theorem textTopLeftOffset_spec (ext : Ext) (opts : Options) :
    (opts.base.textPlacement = "top" →
      getTextTopOffset ext opts = 2 * getTextBaseOffset ext opts - 1/10)
    ∧ (opts.base.textPlacement ≠ "top" → getTextTopOffset ext opts = 0)
    ∧ (opts.base.textPlacement = "left" →
      getTextLeftOffset ext opts = 2 * getTextBaseOffset ext opts)
    ∧ (opts.base.textPlacement ≠ "left" → getTextLeftOffset ext opts = 0) := by
  refine ⟨fun h => ?_, fun h => ?_, fun h => ?_, fun h => ?_⟩ <;>
    simp [getTextTopOffset, getTextLeftOffset, h]

/-- Witness for C9 at the concrete configurations `cfg4` (bottom placement)
and a top-placement variant. -/
theorem textTopLeftOffset_spec_witness :
    getTextTopOffset extW cfg4 = 0 ∧ getTextLeftOffset extW cfg4 = 0 :=
  ⟨(textTopLeftOffset_spec extW cfg4).2.1 (by decide),
   (textTopLeftOffset_spec extW cfg4).2.2.2 (by decide)⟩

/-- C10: with `hasText` and placement `'center'`, `getTextBaseOffset` is 0 —
no extra plate extent is reserved — and the plate profile is sized exactly
`base.height` by `base.width`. -/
theorem centerPlacement_baseOffset_zero (ext : Ext) (opts : Options)
    (ht : opts.base.hasText = true) (hp : opts.base.textPlacement = "center") :
    getTextBaseOffset ext opts = 0
    ∧ (basePlateMesh ext opts).geometry = Geometry.extrudeGeo
        (Shape.roundedRect (-opts.base.height/2) (-opts.base.width/2)
          opts.base.height opts.base.width (getCornerRadius opts))
        1 opts.base.depth false := by
  have h0 : getTextBaseOffset ext opts = 0 := by
    simp [getTextBaseOffset, hp, ht]
  refine ⟨h0, ?_⟩
  simp [basePlateMesh, hp, h0]

/-- Witness for C10 at a concrete center-placement configuration. -/
theorem centerPlacement_baseOffset_zero_witness :
    getTextBaseOffset extW { cfgBase with base.textPlacement := "center" } = 0 :=
  (centerPlacement_baseOffset_zero extW { cfgBase with base.textPlacement := "center" }
    (by decide) (by decide)).1

/-- C3: the do-while wrap loop of `getSubtitleMesh` terminates whenever the
empty string fits within `availableWidth` (and `availableWidth ≥ 0`): each
iteration whose measured width exceeds `availableWidth` removes exactly one
character, so fuel `text.length + 1` — one test per candidate from the full
line down to the empty string — always suffices for the loop to return. -/
theorem wrapLoop_terminates (ext : Ext) (opts : Options) (f : FontStyle)
    (text spill : List Char)
    (_havail : 0 ≤ availableWidth opts)
    (hempty : measuredTextWidth ext opts f [] ≤ availableWidth opts) :
    (wrapGo (measuredTextWidth ext opts f) (availableWidth opts)
      (text.length + 1) text spill).isSome = true :=
  wrapGo_isSome (measuredTextWidth ext opts f) (availableWidth opts) hempty
    (text.length + 1) text spill (Nat.lt_succ_self _)

/-- Witness for C3 at the concrete overflowing line `"ab"` of `cfg4`. -/
theorem wrapLoop_terminates_witness :
    (wrapGo (measuredTextWidth extW cfg4 FontStyle.plain) (availableWidth cfg4)
      ("ab".toList.length + 1) "ab".toList []).isSome = true :=
  wrapLoop_terminates extW cfg4 FontStyle.plain "ab".toList [] (by decide) (by decide)

/-- In a top/bottom/center placement, each loop-body step renders exactly one
more line, and that line measures within the available width. -/
theorem subtitleStep_rendered (ext : Ext) (opts : Options) (st st' : SubState)
    (hpl : opts.base.textPlacement = "top" ∨ opts.base.textPlacement = "bottom" ∨
      opts.base.textPlacement = "center")
    (hstep : subtitleStep ext opts st = some st') :
    ∃ f kept, st'.rendered = st.rendered ++ [(f, kept)] ∧
      measuredTextWidth ext opts f kept ≤ availableWidth opts := by
  unfold subtitleStep at hstep
  rw [if_pos hpl] at hstep
  simp only [] at hstep
  cases hw : wrapGo
      (measuredTextWidth ext opts
        (fonts.getD (stripEmph (st.textLines.getD st.i [])).1 FontStyle.plain))
      (availableWidth opts)
      ((stripEmph (st.textLines.getD st.i [])).2.length + 1)
      (stripEmph (st.textLines.getD st.i [])).2 [] with
  | none => rw [hw] at hstep; exact absurd hstep (by simp)
  | some p =>
    obtain ⟨kept, spill⟩ := p
    rw [hw] at hstep
    injection hstep with hstep
    refine ⟨_, kept, ?_, wrapGo_le _ _ _ _ _ _ _ hw⟩
    rw [← hstep]

/-- The loop of `getSubtitleMesh` preserves the width bound over all rendered
lines (top/bottom/center placements). -/
theorem subtitleLoop_rendered (ext : Ext) (opts : Options)
    (hpl : opts.base.textPlacement = "top" ∨ opts.base.textPlacement = "bottom" ∨
      opts.base.textPlacement = "center") :
    ∀ (fuel : ℕ) (st st' : SubState),
      subtitleLoop ext opts fuel st = some st' →
      (∀ p ∈ st.rendered, measuredTextWidth ext opts p.1 p.2 ≤ availableWidth opts) →
      ∀ p ∈ st'.rendered, measuredTextWidth ext opts p.1 p.2 ≤ availableWidth opts := by
  intro fuel
  induction fuel with
  | zero =>
    intro st st' h hpre
    simp only [subtitleLoop] at h
    split at h
    · exact absurd h (by simp)
    · injection h with h
      subst h
      exact hpre
  | succ n ih =>
    intro st st' h hpre
    simp only [subtitleLoop] at h
    split at h
    · cases hstep : subtitleStep ext opts st with
      | none => rw [hstep] at h; exact absurd h (by simp)
      | some mid =>
        rw [hstep] at h
        simp only [Option.some_bind] at h
        obtain ⟨f, kept, hr, hb⟩ := subtitleStep_rendered ext opts st mid hpl hstep
        refine ih mid st' h ?_
        intro p hp
        rw [hr] at hp
        rcases List.mem_append.mp hp with h1 | h2
        · exact hpre p h1
        · rw [List.mem_singleton.mp h2]
          exact hb
    · injection h with h
      subst h
      exact hpre

/-- C2: whenever `getSubtitleMesh` completes under a top/bottom/center
placement with positive `availableWidth`, every line it handed to the text
renderer (post marker-stripping, at that line's font style) measures at most
`availableWidth`, where `availableWidth` is the constructor's
`base.width - 2*code.margin - (hasBorder ? 2*borderWidth : 0)`. -/
theorem wrappedLines_fit (ext : Ext) (fuel : ℕ) (opts : Options) (m : Mesh)
    (o2 : Options) (r : List (FontStyle × List Char))
    (hpl : opts.base.textPlacement = "top" ∨ opts.base.textPlacement = "bottom" ∨
      opts.base.textPlacement = "center")
    (_hpos : 0 < availableWidth opts)
    (h : getSubtitleMesh ext fuel opts = some (m, o2, r)) :
    availableWidth opts = opts.base.width - 2 * opts.code.margin -
      (if opts.base.hasBorder then 2 * opts.base.borderWidth else 0)
    ∧ ∀ p ∈ r, measuredTextWidth ext opts p.1 p.2 ≤ availableWidth opts := by
  refine ⟨rfl, ?_⟩
  unfold getSubtitleMesh at h
  cases hl : subtitleLoop ext opts fuel (initSubState opts) with
  | none => rw [hl] at h; exact absurd h (by simp)
  | some st =>
    rw [hl] at h
    simp only [Option.map_some', Prod.mk.injEq] at h
    obtain ⟨-, -, rfl⟩ := h
    refine subtitleLoop_rendered ext opts hpl fuel (initSubState opts) st hl ?_
    intro p hp
    simp [initSubState] at hp

/-- Witness for C2 at `cfg4` (message `"ab"`, `availableWidth = 1`, width =
character count), whose wrap loop splits the line. -/
theorem wrappedLines_fit_witness :
    ∃ m o2 r, getSubtitleMesh extW 10 cfg4 = some (m, o2, r)
      ∧ ∀ p ∈ r, measuredTextWidth extW cfg4 p.1 p.2 ≤ availableWidth cfg4 := by
  have hs : (getSubtitleMesh extW 10 cfg4).isSome = true := by decide
  obtain ⟨trip, htrip⟩ := Option.isSome_iff_exists.mp hs
  exact ⟨trip.1, trip.2.1, trip.2.2, htrip,
    (wrappedLines_fit extW 10 cfg4 trip.1 trip.2.1 trip.2.2
      (Or.inr (Or.inl rfl)) (by decide) htrip).2⟩

/-- C5: when the line at index `i` (stripped emphasis level `e`) overflows in
the wrap loop, the loop body leaves at index `i+1` exactly the spilled
characters wrapped in `e` asterisks on each side; the spill is the dropped
suffix of the stripped text (`kept ++ spill = text`). -/
theorem overflow_markers (ext : Ext) (opts : Options) (st : SubState) (e : ℕ)
    (text kept spill : List Char)
    (hnl : st.numLines = st.textLines.length)
    (hi : st.i < st.numLines)
    (hpl : opts.base.textPlacement = "top" ∨ opts.base.textPlacement = "bottom" ∨
      opts.base.textPlacement = "center")
    (hstrip : stripEmph (st.textLines.getD st.i []) = (e, text))
    (hw : wrapGo (measuredTextWidth ext opts (fonts.getD e FontStyle.plain))
      (availableWidth opts) (text.length + 1) text [] = some (kept, spill))
    (hov : spill ≠ []) :
    ∃ st', subtitleStep ext opts st = some st'
      ∧ st'.textLines.getD (st.i + 1) [] = stars e ++ spill ++ stars e
      ∧ kept ++ spill = text := by
  have hks : kept ++ spill = text := by
    simpa using wrapGo_append _ _ _ _ _ _ _ hw
  unfold subtitleStep
  rw [if_pos hpl, hstrip]
  simp only []
  rw [hw]
  refine ⟨_, rfl, ?_, hks⟩
  simp only []
  rw [if_neg (by simpa [List.isEmpty_iff] using hov)]
  rw [show stars e ++ spill ++ stars e
      = List.replicate e '*' ++ spill ++ List.replicate e '*' from rfl]
  exact jsSplice_getD st.textLines (st.i + 1)
    (List.replicate e '*' ++ spill ++ List.replicate e '*') [] (by omega)

/-- Witness for C5: at `cfg4` the single line `"ab"` (level 0) overflows,
spilling `"b"`, and the inserted line is `"b"` with no markers. -/
theorem overflow_markers_witness :
    ∃ st', subtitleStep extW cfg4 (initSubState cfg4) = some st'
      ∧ st'.textLines.getD 1 [] = stars 0 ++ "b".toList ++ stars 0
      ∧ "a".toList ++ "b".toList = "ab".toList :=
  overflow_markers extW cfg4 (initSubState cfg4) 0 "ab".toList "a".toList "b".toList
    (by decide) (by decide) (Or.inr (Or.inl rfl)) (by decide) (by decide) (by decide)

/-- C4 (failing input): on `cfg4` (message `"ab"` over `availableWidth = 1`,
width = character count) the wrap loop splits the line, but the loop never
writes the shortened text back to `textLines[i]`, so the written-back message
is `"ab\nb"` — the overlong line `"ab"` intact plus the duplicated spill.  A
second generation pass on the resulting config re-splits line 0 and writes
back `"ab\nb\nb"`: re-wrapping is not idempotent and the message grows on
every pass. -/
theorem rewrap_not_idempotent :
    (getSubtitleMesh extW 10 cfg4).map (fun p => p.2.1.base.textMessage)
      = some ("ab\nb".toList)
    ∧ (getSubtitleMesh extW 10 cfg4b).map (fun p => p.2.1.base.textMessage)
      = some ("ab\nb\nb".toList)
    ∧ cfg4b.base.textMessage = "ab\nb".toList
    ∧ "ab\nb\nb".toList ≠ "ab\nb".toList :=
  ⟨by decide, by decide, by decide, by decide⟩

/-- Method `getSubtitleMesh` only rewrites `textMessage`: all other option fields
survive unchanged. -/
theorem getSubtitleMesh_preserves (ext : Ext) (fuel : ℕ) (opts : Options)
    (m : Mesh) (o2 : Options) (r : List (FontStyle × List Char))
    (h : getSubtitleMesh ext fuel opts = some (m, o2, r)) :
    o2.base.hasBorder = opts.base.hasBorder
    ∧ o2.base.hasKeychainAttachment = opts.base.hasKeychainAttachment
    ∧ o2.code = opts.code := by
  unfold getSubtitleMesh at h
  cases hl : subtitleLoop ext opts fuel (initSubState opts) with
  | none => rw [hl] at h; exact absurd h (by simp)
  | some st =>
    rw [hl] at h
    simp only [Option.map_some', Prod.mk.injEq] at h
    obtain ⟨-, rfl, -⟩ := h
    exact ⟨rfl, rfl, rfl⟩

/-- C1: whenever `generate3dModel` completes, the exported part set contains
`base` and `combined` always, `border` iff `hasBorder`, `subtitle` iff
`hasText` and not `code.invert`, `keychainAttachment` iff
`hasKeychainAttachment`; and the combined mesh is the flattened merge, with
each part's transform applied, of exactly those parts: base always, border
iff present, subtitle iff present and not inverted, keychain attachment iff
present. -/
theorem generate3dModel_partSet (ext : Ext) (fuel : ℕ) (opts0 : Options)
    (st : TagState) (h : generate3dModel ext fuel opts0 = some st) :
    st.exported.base.isSome = true
    ∧ st.exported.combined.isSome = true
    ∧ (st.exported.border.isSome = true ↔ opts0.base.hasBorder = true)
    ∧ (st.exported.subtitle.isSome = true
        ↔ (opts0.base.hasText = true ∧ opts0.code.invert = false))
    ∧ (st.exported.keychainAttachment.isSome = true
        ↔ opts0.base.hasKeychainAttachment = true)
    ∧ ∃ mb, st.exported.base = some mb
        ∧ st.exported.combined = some ⟨Geometry.mergedGeo
            ([worldGeo mb]
              ++ st.exported.border.toList.map worldGeo
              ++ (if opts0.code.invert then []
                  else st.exported.subtitle.toList.map worldGeo)
              ++ st.exported.keychainAttachment.toList.map worldGeo),
            v0, v0, MaterialKind.base⟩ := by
  unfold generate3dModel at h
  by_cases hT : opts0.base.hasText = true
  · rw [if_pos hT] at h
    cases hsub : getSubtitleMesh ext fuel opts0 with
    | none => rw [hsub] at h; exact absurd h (by simp)
    | some trip =>
      obtain ⟨m1, o2, r⟩ := trip
      rw [hsub] at h
      simp only [Option.map_some'] at h
      injection h with h
      subst h
      obtain ⟨hB, hK, hC⟩ := getSubtitleMesh_preserves ext fuel opts0 m1 o2 r hsub
      refine ⟨rfl, rfl, ?_, ?_, ?_, ⟨_, rfl, ?_⟩⟩
      · rw [hB]
        cases opts0.base.hasBorder <;> simp
      · rw [hC]
        cases opts0.code.invert <;> simp [hT]
      · rw [hK]
        cases opts0.base.hasKeychainAttachment <;> simp
      · rw [hC]
        cases hinv : opts0.code.invert <;>
          simp [getCombinedMesh, hC, hinv]
  · rw [if_neg hT] at h
    injection h with h
    subst h
    have hT' : opts0.base.hasText = false := by
      revert hT; cases opts0.base.hasText <;> simp
    refine ⟨rfl, rfl, ?_, ?_, ?_, ⟨_, rfl, ?_⟩⟩
    · cases opts0.base.hasBorder <;> simp
    · cases opts0.code.invert <;> simp [hT']
    · cases opts0.base.hasKeychainAttachment <;> simp
    · cases hinv : opts0.code.invert <;> simp [getCombinedMesh, hinv]

/-- Witness for C1 at `cfgW1` (text, border and keychain attachment all
enabled, nothing inverted). -/
theorem generate3dModel_partSet_witness :
    ∃ st, generate3dModel extW 10 cfgW1 = some st
      ∧ (st.exported.border.isSome = true ↔ cfgW1.base.hasBorder = true)
      ∧ (st.exported.subtitle.isSome = true
          ↔ (cfgW1.base.hasText = true ∧ cfgW1.code.invert = false)) := by
  have hs : (generate3dModel extW 10 cfgW1).isSome = true := by decide
  obtain ⟨st, hst⟩ := Option.isSome_iff_exists.mp hs
  have h := generate3dModel_partSet extW 10 cfgW1 st hst
  exact ⟨st, hst, h.2.2.1, h.2.2.2.1⟩

/-- C7 (counterexample): on `cfg7` (bottom label, `textBaseOffset = 10`, so
the plate is shifted to `x = 5`) the NFC indentation solid is subtracted at
`x = 5` — the geometric center of the text-offset-shifted plate — and not at
the content-center `x = 0`. -/
theorem nfcHole_not_contentCenter :
    csgCutToolPos (getBaseMesh extW cfg7) = some ⟨5, 0, 1/2⟩
    ∧ (basePlateMesh extW cfg7).position.x = 5
    ∧ contentCenterX cfg7 = 0
    ∧ ((5 : ℚ) ≠ 0) :=
  ⟨by decide, by decide, rfl, by decide⟩

/-- C7 (amended): when `hasNfcIndentation`, `getBaseMesh` subtracts from the
plate an indentation solid — a cylinder of diameter `nfcIndentationSize` for
shape `'round'`, otherwise a box of side `nfcIndentationSize` — of depth
`nfcIndentationDepth`, positioned at `x` equal to the shifted plate's own x
position (its geometric center, which coincides with the content-center only
when the x shift is zero), `y = 0`, and raised by 1 when
`nfcIndentationHidden`. -/
theorem nfcHole_at_plate_shift (ext : Ext) (opts : Options) (x : ℚ)
    (h : opts.base.hasNfcIndentation = true) :
    getBaseMesh ext opts = subtractMesh (basePlateMesh ext opts)
      (nfcHoleMesh opts (basePlateMesh ext opts).position.x)
    ∧ (nfcHoleMesh opts x).geometry =
        (if opts.base.nfcIndentationShape = "round"
         then Geometry.cylinderGeo (opts.base.nfcIndentationSize/2)
           (opts.base.nfcIndentationSize/2) opts.base.nfcIndentationDepth 32
         else Geometry.boxGeo opts.base.nfcIndentationSize
           opts.base.nfcIndentationSize opts.base.nfcIndentationDepth)
    ∧ (nfcHoleMesh opts x).position =
        ⟨x, 0, opts.base.nfcIndentationDepth/2
          + (if opts.base.nfcIndentationHidden then 1 else 0)⟩ := by
  refine ⟨?_, ?_, ?_⟩
  · unfold getBaseMesh
    rw [if_pos h]
  · by_cases hc : opts.base.nfcIndentationShape = "round" <;>
      simp [nfcHoleMesh, hc]
  · by_cases hc : opts.base.nfcIndentationShape = "round" <;>
      simp [nfcHoleMesh, hc]

/-- Witness for the amended C7 at `cfg7`. -/
theorem nfcHole_at_plate_shift_witness :
    getBaseMesh extW cfg7 = subtractMesh (basePlateMesh extW cfg7)
      (nfcHoleMesh cfg7 (basePlateMesh extW cfg7).position.x)
    ∧ (nfcHoleMesh cfg7 5).position = ⟨5, 0, cfg7.base.nfcIndentationDepth/2
        + (if cfg7.base.nfcIndentationHidden then 1 else 0)⟩ :=
  ⟨(nfcHole_at_plate_shift extW cfg7 5 (by decide)).1,
   (nfcHole_at_plate_shift extW cfg7 5 (by decide)).2.2⟩

/-- C8 (counterexample): on `opts8` (`keychainHoleDiameter = 6`, depth 3) the
through-hole cylinder sits at `y = -3`, not at the tab's center `y = 0`: it
is offset by half the hole diameter toward the rounded end. -/
theorem keychainHole_not_tab_centered :
    (keychainHoleMesh opts8).position = ⟨0, -3, 3/2⟩
    ∧ shapeCenterY (keychainTabShape opts8) = 0
    ∧ csgCutToolPos (getKeychainAttachmentMesh extW opts8 (basePlateMesh extW opts8))
        = some ⟨0, -3, 3/2⟩
    ∧ ((-3 : ℚ) ≠ 0) :=
  ⟨by decide, by decide, by decide, by decide⟩

/-- C8 (amended): `getKeychainAttachmentMesh` builds a tab profile with the
two outward corners rounded (radius `height/2`, where `height =
keychainHoleDiameter + 3` and the long side is `2*keychainHoleDiameter + 3`),
extrudes it by `base.depth`, and subtracts a through-hole cylinder of radius
`keychainHoleDiameter/2` and height `base.depth` that is centered across the
tab's short axis and thickness but offset along the long axis by
`keychainHoleDiameter/2` from the tab center, concentric with the rounded
end. -/
theorem keychain_tab_hole_spec (ext : Ext) (opts : Options) (baseM : Mesh)
    (hm : opts.base.mirrorHoles = false) :
    keychainTabShape opts = Shape.customRoundedRect
      (-(opts.base.keychainHoleDiameter + 3)/2)
      (-(2 * opts.base.keychainHoleDiameter + 3)/2)
      (opts.base.keychainHoleDiameter + 3)
      (2 * opts.base.keychainHoleDiameter + 3)
      0 0
      ((opts.base.keychainHoleDiameter + 3)/2)
      ((opts.base.keychainHoleDiameter + 3)/2)
    ∧ keychainTabMesh opts = ⟨Geometry.extrudeGeo (keychainTabShape opts) 1
        opts.base.depth false, v0, v0, MaterialKind.base⟩
    ∧ (keychainHoleMesh opts).geometry = Geometry.cylinderGeo
        (opts.base.keychainHoleDiameter/2) (opts.base.keychainHoleDiameter/2)
        opts.base.depth 32
    ∧ (keychainHoleMesh opts).position.x = 0
    ∧ (keychainHoleMesh opts).position.y = -(opts.base.keychainHoleDiameter/2)
    ∧ (keychainHoleMesh opts).position.z = opts.base.depth/2
    ∧ (getKeychainAttachmentMesh ext opts baseM).geometry
        = (subtractMesh (keychainTabMesh opts) (keychainHoleMesh opts)).geometry := by
  refine ⟨?_, rfl, rfl, rfl, ?_, rfl, ?_⟩
  · unfold keychainTabShape
    ring_nf
  · simp only [keychainHoleMesh]
    ring_nf
  · unfold getKeychainAttachmentMesh
    simp only [hm, Bool.false_eq_true, if_false]
    split_ifs <;> rfl

/-- Witness for the amended C8 at `opts8`. -/
theorem keychain_tab_hole_spec_witness :
    (keychainHoleMesh opts8).position.y = -(opts8.base.keychainHoleDiameter/2)
    ∧ (getKeychainAttachmentMesh extW opts8 (basePlateMesh extW opts8)).geometry
        = (subtractMesh (keychainTabMesh opts8) (keychainHoleMesh opts8)).geometry :=
  ⟨(keychain_tab_hole_spec extW opts8 (basePlateMesh extW opts8) (by decide)).2.2.2.2.1,
   (keychain_tab_hole_spec extW opts8 (basePlateMesh extW opts8) (by decide)).2.2.2.2.2.2⟩
